import Mathlib

/-!
# brailleDaemon: the pipe reader and the motor hat start-up

A shallow embedding of `src/C/daemon.c`, `src/C/stepperHat.c` and `src/main.c`.

* A byte is a `Fin 256`.  A `char` buffer is a `List Byte`; a `char *` into it is the
  suffix of the list that starts at the pointed-to cell.
* The three things the program can be observed through are collected in `World`:
  the bytes written to the `stdout` stream, the reports written to the `stderr`
  stream, and the calls made to the wiringPi I2C library.  `errno` is part of it too.
* Calls that leave the program (`wiringPiI2CSetup`, `wiringPiI2CWriteReg8`, `mkfifo`,
  `open`, `read`) get their results from an `Env` and from a list of `ReadOutcome`s.
* A function that may call `exit` returns a `Ctl`.  Code whose behaviour is undefined
  in C (an access outside the buffer) returns `none`.
-/

namespace BrailleDaemon

/-- One `char` cell, seen as its unsigned value. -/
abbrev Byte := Fin 256

/-- Bytes of an ASCII string literal, without the terminating zero. -/
def cstr (s : String) : List Byte := s.toList.map (fun c => Fin.ofNat c.toNat)

/-! ## Observable state -/

/-- Calls into the wiringPi I2C library, in the order they are made. -/
inductive BusCall
  | setup (devId : Nat)
  | writeReg8 (fd : Int) (reg : Nat) (data : Nat)
  | readReg8 (fd : Int) (reg : Nat)
  deriving DecidableEq

/-- A `BusCall` that is a register transaction (a read or a write of one register). -/
def BusCall.isTransaction : BusCall → Bool
  | .setup _ => false
  | .writeReg8 _ _ _ => true
  | .readReg8 _ _ => true

/-- A `BusCall` that writes a register. -/
def BusCall.isRegWrite : BusCall → Bool
  | .writeReg8 _ _ _ => true
  | _ => false

/-- Reports written to the `stderr` stream. -/
inductive Diag
  /-- Call `fprintf(stderr, format, arg)` with one `%d` argument. -/
  | fprintf (format : String) (arg : Nat)
  /-- Call `perror(s)` while `errno` has the given value. -/
  | perror (s : String) (errno : Nat)
  deriving DecidableEq

/-- What the process has done so far, and the current `errno`. -/
structure World where
  stdout : List Byte
  stderr : List Diag
  bus : List BusCall
  errno : Nat
  deriving DecidableEq

/-- A world in which nothing has happened yet. -/
def World.init : World := { stdout := [], stderr := [], bus := [], errno := 0 }

/-- Results of the calls that leave the program during start-up. -/
structure Env where
  /-- Result of `wiringPiI2CSetup(devId)`. -/
  wiringPiI2CSetup : Nat → Int
  /-- Result of `wiringPiI2CWriteReg8(fd, reg, data)`. -/
  wiringPiI2CWriteReg8 : Int → Nat → Nat → Int
  /-- Result of `mkfifo(path, mode)`. -/
  mkfifo : String → Nat → Int
  /-- Value `mkfifo` leaves in `errno` when it fails. -/
  mkfifoErrno : Nat
  /-- Result of `open(path, O_RDONLY)`. -/
  sysOpen : String → Int
  /-- Value `open` leaves in `errno` when it fails. -/
  sysOpenErrno : Nat

/-- Result of a function that may end the process with `exit`. -/
inductive Ctl (α : Type)
  | ret (w : World) (a : α)
  | exit (w : World) (status : Int)

/-- Exit status as the parent process sees it: the low eight bits. -/
def exitStatus (status : Int) : Int := status % 256

/-! ## `src/C/stepperHat.c` -/

def HAT_ADDR : Nat := 0x60
def MODE_1_REG : Nat := 0x00
def MODE_2_REG : Nat := 0x01
def PRESCALE_REG : Nat := 0xFE
def PWM_REGS_BASE : Nat := 0x06

/-- The call `wiringPiI2CWriteReg8(fd, reg, data)`: recorded on the bus, result from `env`. -/
def wiringPiI2CWriteReg8 (env : Env) (fd : Int) (reg data : Nat) (w : World) : World × Int :=
  ({ w with bus := w.bus ++ [BusCall.writeReg8 fd reg data] }, env.wiringPiI2CWriteReg8 fd reg data)

/-- The call `wiringPiI2CSetup(devId)`: recorded on the bus, result from `env`. -/
def wiringPiI2CSetup (env : Env) (devId : Nat) (w : World) : World × Int :=
  ({ w with bus := w.bus ++ [BusCall.setup devId] }, env.wiringPiI2CSetup devId)

/-- The call `puts(s)`: the bytes of `s` and a newline go to `stdout`. -/
def puts (s : List Byte) (w : World) : World :=
  { w with stdout := w.stdout ++ s ++ [10] }

/-- Embedding of `motorHatReset` (stepperHat.c 27-32). -/
def motorHatReset (env : Env) (fd : Int) (w : World) : Ctl Unit :=
  let (w1, r) := wiringPiI2CWriteReg8 env fd MODE_1_REG 0x00 w
  if r < 0 then
    Ctl.exit { w1 with stderr := w1.stderr ++ [Diag.fprintf "Unable to write to register %d\n" MODE_1_REG] } (-1)
  else
    Ctl.ret w1 ()

/-- Embedding of `motorHatSetup` (stepperHat.c 39-50). -/
def motorHatSetup (env : Env) (w : World) : Ctl Int :=
  let (w1, fd) := wiringPiI2CSetup env HAT_ADDR w
  if fd < 0 then
    Ctl.exit { w1 with stderr := w1.stderr ++ [Diag.fprintf "Unable to register at at %d\n" HAT_ADDR] } (-1)
  else
    let w2 := puts (cstr "Registered hat!") w1
    match motorHatReset env fd w2 with
    | Ctl.exit w3 status => Ctl.exit w3 status
    | Ctl.ret w3 _ => Ctl.ret w3 fd

/-! ## `src/C/daemon.c` -/

namespace DaemonC

def PIPE_PATH : String := "/tmp/text2type-pipe"

/-- The macro `BUFFER_SIZE`, which expands to the tokens `1 << 10`. -/
def BUFFER_SIZE : Nat := 1 <<< 10

/-- The value of `sizeof(buffer)` for `char buffer[BUFFER_SIZE]`. -/
def sizeofBuffer : Nat := BUFFER_SIZE

def EXIT_SUCCESS : Int := 0
def EXIT_FAILURE : Int := 1
def EEXIST : Nat := 17

/-- The call `putc(c, stdout)`. -/
def putc (c : Byte) (w : World) : World := { w with stdout := w.stdout ++ [c] }

/-- Embedding of `processPipeInfo` (daemon.c 14-17).  The argument is the memory from
the pointer to the end of the buffer; running off that end is `none`. -/
def processPipeInfo : List Byte → World → Option World
  | [], _ => none
  | c :: rest, w => if c ≠ 0 then processPipeInfo rest (putc c w) else some w

/-- The call `perror(s)`: a report on `stderr` that carries the current `errno`. -/
def perror (s : String) (w : World) : World :=
  { w with stderr := w.stderr ++ [Diag.perror s w.errno] }

/-- The call `mkfifo(path, mode)`: result from `env`; a failure sets `errno`. -/
def mkfifo (env : Env) (path : String) (mode : Nat) (w : World) : World × Int :=
  let r := env.mkfifo path mode
  (if r < 0 then { w with errno := env.mkfifoErrno } else w, r)

/-- The call `open(path, O_RDONLY)`: result from `env`; a failure sets `errno`. -/
def sysOpen (env : Env) (path : String) (w : World) : World × Int :=
  let r := env.sysOpen path
  (if r < 0 then { w with errno := env.sysOpenErrno } else w, r)

/-- What one call of `read` on the pipe does: it delivers a chunk of bytes (possibly
none), or it fails with an `errno`. -/
inductive ReadOutcome
  | data (chunk : List Byte)
  | error (errno : Nat)
  deriving DecidableEq

/-- The call `read(pipeDescriptor, buffer, count)`.  On success the chunk is placed at the
start of the buffer and its length is returned; on failure the buffer is left alone, `errno`
is set and `-1` is returned.  `none`: an outcome the call cannot have (more than `count`
bytes) or a `count` larger than the buffer. -/
def read (r : ReadOutcome) (buffer : List Byte) (count : Nat) (w : World) :
    Option (World × List Byte × Int) :=
  match r with
  | ReadOutcome.data chunk =>
    if chunk.length ≤ count ∧ count ≤ buffer.length then
      some (w, chunk ++ buffer.drop chunk.length, (chunk.length : Int))
    else none
  | ReadOutcome.error e => some ({ w with errno := e }, buffer, -1)

/-- The assignment `buffer[i] = c`; `none` when `i` is not an index of the buffer. -/
def store (buffer : List Byte) (i : Int) (c : Byte) : Option (List Byte) :=
  if 0 ≤ i ∧ i.toNat < buffer.length then some (buffer.set i.toNat c) else none

/-- The part of `main`'s state that the loop works on. -/
structure Frame where
  w : World
  buffer : List Byte
  deriving DecidableEq

/-- One pass through the body of `while (1)` (daemon.c 45-51), given what `read` does. -/
def loopBody (r : ReadOutcome) (s : Frame) : Option Frame :=
  match read r s.buffer (sizeofBuffer - 1) s.w with
  | none => none
  | some (w1, buffer1, bytesRead) =>
    if bytesRead ≥ 0 then
      match store buffer1 bytesRead 0 with
      | none => none
      | some buffer2 =>
        match processPipeInfo buffer2 w1 with
        | none => none
        | some w2 => some { w := w2, buffer := buffer2 }
    else
      some { w := perror "reading from pipe" w1, buffer := buffer1 }

/-- Where a run of `main` stands once the supplied read outcomes are used up. -/
inductive Outcome
  /-- The process has ended, by `exit(status)` or by `return status` from `main`. -/
  | exited (w : World) (status : Int)
  /-- The process is inside the loop, in the next call of `read`. -/
  | reading (s : Frame)
  deriving DecidableEq

/-- World of an outcome. -/
def Outcome.world : Outcome → World
  | Outcome.exited w _ => w
  | Outcome.reading s => s.w

/-- The loop `while (1) { ... }` followed by `close(pipeDescriptor); return EXIT_SUCCESS;`
(daemon.c 44-56), run on the given read outcomes. -/
def whileLoop : List ReadOutcome → Frame → Option Outcome
  | [], s =>
    if (1 : Int) ≠ 0 then some (Outcome.reading s)
    else some (Outcome.exited s.w EXIT_SUCCESS)
  | r :: rest, s =>
    if (1 : Int) ≠ 0 then
      match loopBody r s with
      | none => none
      | some s1 => whileLoop rest s1
    else some (Outcome.exited s.w EXIT_SUCCESS)

/-- Embedding of `main` (daemon.c 20-57) in the process that goes on after `daemon(0, 0)`,
whose result the code ignores, and `umask(0)`.  `garbage` is the content of the
uninitialised `buffer`. -/
def main (env : Env) (garbage : Nat → Byte) (reads : List ReadOutcome) (w : World) :
    Option Outcome :=
  match motorHatSetup env w with
  | Ctl.exit w1 status => some (Outcome.exited w1 status)
  | Ctl.ret w1 _ =>
    let (w2, r) := mkfifo env PIPE_PATH 0o666 w1
    if r < 0 ∧ w2.errno ≠ EEXIST then
      some (Outcome.exited (perror "making pipe" w2) EXIT_FAILURE)
    else
      let (w3, pipeDescriptor) := sysOpen env PIPE_PATH w2
      if pipeDescriptor < 0 then
        some (Outcome.exited (perror "opening pip" w3) EXIT_FAILURE)
      else
        whileLoop reads { w := w3, buffer := (List.range BUFFER_SIZE).map garbage }

end DaemonC

/-! ## `src/main.c` -/

namespace MainC

/-- The call `putc(c, stdout)`. -/
def putc (c : Byte) (w : World) : World := { w with stdout := w.stdout ++ [c] }

/-- Embedding of `processPipeInfo` (main.c 38-41). -/
def processPipeInfo : List Byte → World → Option World
  | [], _ => none
  | c :: rest, w => if c ≠ 0 then processPipeInfo rest (putc c w) else some w

end MainC

end BrailleDaemon

namespace BrailleDaemon

open DaemonC

/-! ## Notions used to state the properties -/

/-- Bytes of a buffer that precede its first zero byte. -/
def beforeZero (buffer : List Byte) : List Byte := buffer.takeWhile (fun c => c ≠ 0)

/-- Buffer after a successful read of `chunk` and the store of the terminator. -/
def terminated (chunk buffer : List Byte) : List Byte :=
  (chunk ++ buffer.drop chunk.length).set chunk.length 0

/-- A read outcome that a call asking for `count` bytes can have. -/
def DaemonC.ReadOutcome.fits (count : Nat) : ReadOutcome → Bool
  | ReadOutcome.data chunk => decide (chunk.length ≤ count)
  | ReadOutcome.error _ => true

/-- A read outcome that is a success. -/
def DaemonC.ReadOutcome.isData : ReadOutcome → Bool
  | ReadOutcome.data _ => true
  | ReadOutcome.error _ => false

/-- Bytes the loop puts on `stdout` for a sequence of read outcomes: for each successful
read, in order, the bytes of its chunk that precede the chunk's first zero byte. -/
def dispatched : List ReadOutcome → List Byte
  | [] => []
  | ReadOutcome.data chunk :: rest => beforeZero chunk ++ dispatched rest
  | ReadOutcome.error _ :: rest => dispatched rest

/-- Reports the loop puts on `stderr` for a sequence of read outcomes: one per failed read. -/
def readReports : List ReadOutcome → List Diag
  | [] => []
  | ReadOutcome.data _ :: rest => readReports rest
  | ReadOutcome.error e :: rest => Diag.perror "reading from pipe" e :: readReports rest

/-- The bus cannot be opened at the hat's address. -/
def busOpenFails (env : Env) : Prop := env.wiringPiI2CSetup HAT_ADDR < 0

/-- The write of `MODE_1_REG` on the opened handle fails. -/
def resetWriteFails (env : Env) : Prop :=
  env.wiringPiI2CWriteReg8 (env.wiringPiI2CSetup HAT_ADDR) MODE_1_REG 0x00 < 0

/-- The FIFO cannot be created, for a reason other than that it exists already. -/
def fifoCreateFails (env : Env) : Prop :=
  env.mkfifo PIPE_PATH 0o666 < 0 ∧ env.mkfifoErrno ≠ EEXIST

/-- The FIFO cannot be opened for reading. -/
def fifoOpenFails (env : Env) : Prop := env.sysOpen PIPE_PATH < 0

instance (env : Env) : Decidable (busOpenFails env) := by unfold busOpenFails; infer_instance
instance (env : Env) : Decidable (resetWriteFails env) := by unfold resetWriteFails; infer_instance
instance (env : Env) : Decidable (fifoCreateFails env) := by unfold fifoCreateFails; infer_instance
instance (env : Env) : Decidable (fifoOpenFails env) := by unfold fifoOpenFails; infer_instance

/-- Some step of the start-up fails. -/
def startupFails (env : Env) : Prop :=
  busOpenFails env ∨ resetWriteFails env ∨ fifoCreateFails env ∨ fifoOpenFails env

instance (env : Env) : Decidable (startupFails env) := by unfold startupFails; infer_instance

/-- The line `puts("Registered hat!")` writes. -/
def registeredNotice : List Byte := cstr "Registered hat!" ++ [10]

/-- Report of the first start-up step that fails, if one does. -/
def startupReports (env : Env) : List Diag :=
  if busOpenFails env then [Diag.fprintf "Unable to register at at %d\n" HAT_ADDR]
  else if resetWriteFails env then [Diag.fprintf "Unable to write to register %d\n" MODE_1_REG]
  else if fifoCreateFails env then [Diag.perror "making pipe" env.mkfifoErrno]
  else if fifoOpenFails env then [Diag.perror "opening pip" env.sysOpenErrno]
  else []

/-- World after the bus was opened, the notice written and `MODE_1_REG` written. -/
def worldAfterSetup (env : Env) (w : World) : World :=
  { w with stdout := w.stdout ++ registeredNotice,
           bus := w.bus ++ [BusCall.setup HAT_ADDR,
             BusCall.writeReg8 (env.wiringPiI2CSetup HAT_ADDR) MODE_1_REG 0x00] }

/-- World at the entry of the loop, after a start-up in which nothing was fatal. -/
def worldAtLoop (env : Env) (w : World) : World :=
  { worldAfterSetup env w with
    errno := if env.mkfifo PIPE_PATH 0o666 < 0 then env.mkfifoErrno else w.errno }

/-- World of a `Ctl`. -/
def Ctl.world {α : Type} : Ctl α → World
  | Ctl.ret w _ => w
  | Ctl.exit w _ => w

/-- An environment in which every start-up call succeeds; the bus handle is `3`, the pipe
descriptor is `4`. -/
def envOk : Env :=
  { wiringPiI2CSetup := fun _ => 3, wiringPiI2CWriteReg8 := fun _ _ _ => 0,
    mkfifo := fun _ _ => 0, mkfifoErrno := 0, sysOpen := fun _ => 4, sysOpenErrno := 0 }

/-- A frame with an empty world and a buffer full of `0xAA`. -/
def frameAA : Frame := { w := World.init, buffer := List.replicate 1024 0xAA }

/-! ## What the scan of `processPipeInfo` does -/

theorem beforeZero_nil : beforeZero [] = [] := rfl

theorem beforeZero_cons_zero (rest : List Byte) : beforeZero (0 :: rest) = [] := by
  simp [beforeZero]

theorem beforeZero_cons_ne (c : Byte) (rest : List Byte) (h : c ≠ 0) :
    beforeZero (c :: rest) = c :: beforeZero rest := by
  simp [beforeZero, List.takeWhile_cons, h]

theorem beforeZero_length_le (buffer : List Byte) : (beforeZero buffer).length ≤ buffer.length := by
  induction buffer with
  | nil => simp [beforeZero]
  | cons c rest ih =>
    by_cases h : c = 0
    · subst h; simp [beforeZero_cons_zero]
    · rw [beforeZero_cons_ne c rest h]; simp only [List.length_cons]; omega

theorem beforeZero_eq_self (chunk : List Byte) (h : (0 : Byte) ∉ chunk) : beforeZero chunk = chunk := by
  induction chunk with
  | nil => rfl
  | cons c rest ih =>
    have hc : c ≠ 0 := fun e => h (by simp [e])
    have hr : (0 : Byte) ∉ rest := fun e => h (List.mem_cons_of_mem _ e)
    rw [beforeZero_cons_ne c rest hc, ih hr]

theorem beforeZero_append_zero (chunk tail : List Byte) :
    beforeZero (chunk ++ 0 :: tail) = beforeZero chunk := by
  induction chunk with
  | nil => simp [beforeZero]
  | cons c rest ih =>
    by_cases h : c = 0
    · subst h; simp [beforeZero_cons_zero]
    · rw [List.cons_append, beforeZero_cons_ne _ _ h, beforeZero_cons_ne _ _ h, ih]

theorem processPipeInfo_of_mem (buffer : List Byte) (w : World) (h : (0 : Byte) ∈ buffer) :
    processPipeInfo buffer w = some { w with stdout := w.stdout ++ beforeZero buffer } := by
  induction buffer generalizing w with
  | nil => simp at h
  | cons c rest ih =>
    by_cases hc : c = 0
    · subst hc
      simp [processPipeInfo, beforeZero_cons_zero]
    · have hr : (0 : Byte) ∈ rest := by
        rcases List.mem_cons.mp h with e | e
        · exact absurd e.symm hc
        · exact e
      simp only [processPipeInfo, ne_eq, hc, not_false_eq_true, if_true]
      rw [ih (putc c w) hr, beforeZero_cons_ne c rest hc]
      simp [putc]

theorem processPipeInfo_of_not_mem (buffer : List Byte) (w : World) (h : (0 : Byte) ∉ buffer) :
    processPipeInfo buffer w = none := by
  induction buffer generalizing w with
  | nil => rfl
  | cons c rest ih =>
    have hc : c ≠ 0 := fun e => h (by simp [e])
    have hr : (0 : Byte) ∉ rest := fun e => h (List.mem_cons_of_mem _ e)
    simp only [processPipeInfo, ne_eq, hc, not_false_eq_true, if_true]
    exact ih _ hr

theorem mainC_processPipeInfo_eq (buffer : List Byte) (w : World) :
    MainC.processPipeInfo buffer w = DaemonC.processPipeInfo buffer w := by
  induction buffer generalizing w with
  | nil => rfl
  | cons c rest ih =>
    by_cases hc : c = 0
    · simp [MainC.processPipeInfo, DaemonC.processPipeInfo, hc]
    · simp only [MainC.processPipeInfo, DaemonC.processPipeInfo, ne_eq, hc, not_false_eq_true,
        if_true]
      exact ih _

/-! ## One pass through the loop body -/

theorem bufferSize_eq : BUFFER_SIZE = 1024 := by decide

theorem sizeofBuffer_pred : sizeofBuffer - 1 = 1023 := by decide

theorem terminated_eq (chunk buffer : List Byte) (h : chunk.length < buffer.length) :
    terminated chunk buffer = chunk ++ 0 :: buffer.drop (chunk.length + 1) := by
  unfold terminated
  have hd : buffer.drop chunk.length = buffer.get ⟨chunk.length, h⟩ :: buffer.drop (chunk.length + 1) := by
    rw [List.drop_eq_getElem_cons h]; rfl
  rw [hd, List.set_append_right _ _ (le_refl _), Nat.sub_self, List.set_cons_zero]

theorem terminated_length (chunk buffer : List Byte) (h : chunk.length < buffer.length) :
    (terminated chunk buffer).length = buffer.length := by
  unfold terminated
  simp only [List.length_set, List.length_append, List.length_drop]
  omega

theorem loopBody_data (chunk : List Byte) (s : Frame)
    (hb : s.buffer.length = BUFFER_SIZE) (hc : chunk.length ≤ 1023) :
    loopBody (ReadOutcome.data chunk) s =
      some { w := { s.w with stdout := s.w.stdout ++ beforeZero chunk },
             buffer := terminated chunk s.buffer } := by
  have hlt : chunk.length < s.buffer.length := by rw [hb, bufferSize_eq]; omega
  have hmem : (0 : Byte) ∈ terminated chunk s.buffer := by
    rw [terminated_eq _ _ hlt]; simp
  have hbz : beforeZero (terminated chunk s.buffer) = beforeZero chunk := by
    rw [terminated_eq _ _ hlt, beforeZero_append_zero]
  have hlen2 : chunk.length < (chunk ++ List.drop chunk.length s.buffer).length := by
    simp only [List.length_append, List.length_drop]; omega
  have hcount : chunk.length ≤ sizeofBuffer - 1 ∧ sizeofBuffer - 1 ≤ s.buffer.length := by
    rw [sizeofBuffer_pred, hb, bufferSize_eq]; omega
  have hpp := processPipeInfo_of_mem _ s.w hmem
  rw [hbz] at hpp
  unfold terminated at hpp
  simp only [loopBody, DaemonC.read, hcount, and_self, if_true, ge_iff_le, Int.natCast_nonneg,
    store, Int.toNat_ofNat, hlen2, hpp]
  rfl

theorem loopBody_error (e : Nat) (s : Frame) :
    loopBody (ReadOutcome.error e) s =
      some { w := { s.w with stderr := s.w.stderr ++ [Diag.perror "reading from pipe" e], errno := e },
             buffer := s.buffer } := by
  simp [loopBody, DaemonC.read, perror]


/-! ## The loop -/

theorem whileLoop_nil (s : Frame) : whileLoop [] s = some (Outcome.reading s) := by
  simp [whileLoop]

theorem whileLoop_cons (r : ReadOutcome) (rest : List ReadOutcome) (s s1 : Frame)
    (h : loopBody r s = some s1) : whileLoop (r :: rest) s = whileLoop rest s1 := by
  simp [whileLoop, h]

theorem loopBody_fits (r : ReadOutcome) (s : Frame) (hb : s.buffer.length = BUFFER_SIZE)
    (hr : r.fits 1023 = true) :
    ∃ s1, loopBody r s = some s1 ∧ s1.buffer.length = BUFFER_SIZE ∧
      s1.w.stdout = s.w.stdout ++ dispatched [r] ∧
      s1.w.stderr = s.w.stderr ++ readReports [r] ∧ s1.w.bus = s.w.bus := by
  cases r with
  | data chunk =>
    have hc : chunk.length ≤ 1023 := by simpa [ReadOutcome.fits] using hr
    have hlt : chunk.length < s.buffer.length := by rw [hb, bufferSize_eq]; omega
    refine ⟨_, loopBody_data chunk s hb hc, ?_, ?_, ?_, ?_⟩
    · simp only [terminated_length _ _ hlt, hb]
    · simp [dispatched]
    · simp [readReports]
    · rfl
  | error e =>
    refine ⟨_, loopBody_error e s, hb, ?_, ?_, rfl⟩
    · simp [dispatched]
    · simp [readReports]

theorem dispatched_cons (r : ReadOutcome) (rest : List ReadOutcome) :
    dispatched (r :: rest) = dispatched [r] ++ dispatched rest := by
  cases r <;> simp [dispatched]

theorem readReports_cons (r : ReadOutcome) (rest : List ReadOutcome) :
    readReports (r :: rest) = readReports [r] ++ readReports rest := by
  cases r <;> simp [readReports]

theorem whileLoop_reading (reads : List ReadOutcome) (s : Frame)
    (hb : s.buffer.length = BUFFER_SIZE) (hr : ∀ r ∈ reads, r.fits 1023 = true) :
    ∃ s1, whileLoop reads s = some (Outcome.reading s1) ∧ s1.buffer.length = BUFFER_SIZE ∧
      s1.w.stdout = s.w.stdout ++ dispatched reads ∧
      s1.w.stderr = s.w.stderr ++ readReports reads ∧ s1.w.bus = s.w.bus := by
  induction reads generalizing s with
  | nil => exact ⟨s, whileLoop_nil s, hb, by simp [dispatched], by simp [readReports], rfl⟩
  | cons r rest ih =>
    obtain ⟨s1, h1, hb1, ho1, he1, hbus1⟩ := loopBody_fits r s hb (hr r (by simp))
    obtain ⟨s2, h2, hb2, ho2, he2, hbus2⟩ := ih s1 hb1 (fun x hx => hr x (List.mem_cons_of_mem _ hx))
    refine ⟨s2, ?_, hb2, ?_, ?_, ?_⟩
    · rw [whileLoop_cons r rest s s1 h1, h2]
    · rw [ho2, ho1, dispatched_cons r rest, List.append_assoc]
    · rw [he2, he1, readReports_cons r rest, List.append_assoc]
    · rw [hbus2, hbus1]

theorem dispatched_filter (reads : List ReadOutcome) :
    dispatched (reads.filter ReadOutcome.isData) = dispatched reads := by
  induction reads with
  | nil => rfl
  | cons r rest ih =>
    cases r with
    | data chunk => simp [List.filter_cons, ReadOutcome.isData, dispatched, ih]
    | error e => simp [List.filter_cons, ReadOutcome.isData, dispatched, ih]

theorem readReports_filter (reads : List ReadOutcome) :
    readReports (reads.filter ReadOutcome.isData) = [] := by
  induction reads with
  | nil => rfl
  | cons r rest ih =>
    cases r with
    | data chunk => simp [List.filter_cons, ReadOutcome.isData, readReports, ih]
    | error e => simp [List.filter_cons, ReadOutcome.isData, ih]

theorem dispatched_map_data (chunks : List (List Byte)) (h : ∀ c ∈ chunks, (0 : Byte) ∉ c) :
    dispatched (chunks.map ReadOutcome.data) = chunks.flatten := by
  induction chunks with
  | nil => rfl
  | cons c rest ih =>
    have hc := beforeZero_eq_self c (h c (by simp))
    have hr := ih (fun x hx => h x (List.mem_cons_of_mem _ hx))
    simp [dispatched, hc, hr]

theorem readReports_map_data (chunks : List (List Byte)) :
    readReports (chunks.map ReadOutcome.data) = [] := by
  induction chunks with
  | nil => rfl
  | cons c rest ih => simp [readReports, ih]

theorem dispatched_hello :
    dispatched [ReadOutcome.data (cstr "he"), ReadOutcome.data [], ReadOutcome.data (cstr "llo")]
      = cstr "hello" := by decide

theorem frameAA_length : frameAA.buffer.length = BUFFER_SIZE := by
  show (List.replicate 1024 (0xAA : Byte)).length = BUFFER_SIZE
  rw [List.length_replicate, bufferSize_eq]


/-! ## Start-up -/

theorem motorHatReset_eq (env : Env) (fd : Int) (w : World) :
    motorHatReset env fd w =
      if env.wiringPiI2CWriteReg8 fd MODE_1_REG 0x00 < 0 then
        Ctl.exit { w with bus := w.bus ++ [BusCall.writeReg8 fd MODE_1_REG 0x00],
                          stderr := w.stderr ++ [Diag.fprintf "Unable to write to register %d\n" MODE_1_REG] } (-1)
      else Ctl.ret { w with bus := w.bus ++ [BusCall.writeReg8 fd MODE_1_REG 0x00] } () := by
  simp only [motorHatReset, wiringPiI2CWriteReg8]

theorem motorHatSetup_eq (env : Env) (w : World) :
    motorHatSetup env w =
      if busOpenFails env then
        Ctl.exit { w with bus := w.bus ++ [BusCall.setup HAT_ADDR],
                          stderr := w.stderr ++ [Diag.fprintf "Unable to register at at %d\n" HAT_ADDR] } (-1)
      else if resetWriteFails env then
        Ctl.exit { worldAfterSetup env w with
                   stderr := w.stderr ++ [Diag.fprintf "Unable to write to register %d\n" MODE_1_REG] } (-1)
      else Ctl.ret (worldAfterSetup env w) (env.wiringPiI2CSetup HAT_ADDR) := by
  unfold busOpenFails resetWriteFails
  simp only [motorHatSetup, wiringPiI2CSetup, motorHatReset_eq]
  by_cases h1 : env.wiringPiI2CSetup HAT_ADDR < 0
  · simp only [h1, if_true]
  · simp only [h1, if_false]
    by_cases h2 : env.wiringPiI2CWriteReg8 (env.wiringPiI2CSetup HAT_ADDR) MODE_1_REG 0x00 < 0
    · simp [h2, worldAfterSetup, puts, registeredNotice]
    · simp [h2, worldAfterSetup, puts, registeredNotice]

theorem main_eq (env : Env) (garbage : Nat → Byte) (reads : List ReadOutcome) (w : World) :
    main env garbage reads w =
      if busOpenFails env then
        some (Outcome.exited
          { w with bus := w.bus ++ [BusCall.setup HAT_ADDR],
                   stderr := w.stderr ++ [Diag.fprintf "Unable to register at at %d\n" HAT_ADDR] } (-1))
      else if resetWriteFails env then
        some (Outcome.exited
          { worldAfterSetup env w with
            stderr := w.stderr ++ [Diag.fprintf "Unable to write to register %d\n" MODE_1_REG] } (-1))
      else if fifoCreateFails env then
        some (Outcome.exited
          { worldAfterSetup env w with
            stderr := w.stderr ++ [Diag.perror "making pipe" env.mkfifoErrno],
            errno := env.mkfifoErrno } EXIT_FAILURE)
      else if fifoOpenFails env then
        some (Outcome.exited
          { worldAfterSetup env w with
            stderr := w.stderr ++ [Diag.perror "opening pip" env.sysOpenErrno],
            errno := env.sysOpenErrno } EXIT_FAILURE)
      else
        whileLoop reads { w := worldAtLoop env w, buffer := (List.range BUFFER_SIZE).map garbage } := by
  unfold main
  rw [motorHatSetup_eq]
  by_cases h1 : busOpenFails env
  · simp only [h1, if_true]
  · simp only [h1, if_false]
    by_cases h2 : resetWriteFails env
    · simp only [h2, if_true]
    · simp only [h2, if_false]
      unfold fifoCreateFails fifoOpenFails
      simp only [DaemonC.mkfifo, DaemonC.sysOpen]
      by_cases h3 : env.mkfifo PIPE_PATH 0o666 < 0
      · by_cases h3e : env.mkfifoErrno = EEXIST
        · by_cases h4 : env.sysOpen PIPE_PATH < 0
          · simp [h3, h3e, h4, perror, worldAfterSetup]
          · simp [h3, h3e, h4, worldAtLoop, worldAfterSetup]
        · simp [h3, h3e, perror, worldAfterSetup]
      · by_cases h4 : env.sysOpen PIPE_PATH < 0
        · simp [h3, h4, perror, worldAfterSetup]
        · simp [h3, h4, worldAtLoop, worldAfterSetup]

theorem range_map_length (w : World) (garbage : Nat → Byte) :
    ({ w := w, buffer := (List.range BUFFER_SIZE).map garbage } : Frame).buffer.length
      = BUFFER_SIZE := by
  simp only [List.length_map, List.length_range]


/-! ## The dispatcher: `processPipeInfo` and one pass of the loop -/

/-- C1, as the specification states it, fails: the chunk `'A','B',0x00,'C'`, read into a
buffer and dispatched by one pass of the loop body, puts only `'A','B'` on `stdout`; the
zero byte and the `'C'` after it are not forwarded. -/
theorem dispatch_stops_at_embedded_zero :
    (loopBody (ReadOutcome.data [0x41, 0x42, 0x00, 0x43]) frameAA).map (fun s => s.w.stdout)
        = some [0x41, 0x42] ∧
      (loopBody (ReadOutcome.data [0x41, 0x42, 0x00, 0x43]) frameAA).map (fun s => s.w.stdout)
        ≠ some [0x41, 0x42, 0x00, 0x43] := by
  have h := loopBody_data [0x41, 0x42, 0x00, 0x43] frameAA frameAA_length (by decide)
  rw [h]
  constructor
  · simp only [Option.map_some']
    decide
  · simp only [Option.map_some']
    decide

/-- C1, amended: for every chunk of at most 1023 bytes handed to the dispatcher by one pass
of the loop body, the bytes of the chunk that precede its first zero byte are put on
`stdout`, in arrival order, and nothing else is; a chunk without a zero byte is forwarded
whole. -/
theorem dispatch_forwards_up_to_first_zero (chunk : List Byte) (s : Frame)
    (hb : s.buffer.length = BUFFER_SIZE) (hc : chunk.length ≤ 1023) :
    ∃ s1, loopBody (ReadOutcome.data chunk) s = some s1 ∧
      s1.w.stdout = s.w.stdout ++ chunk.takeWhile (fun c => c ≠ 0) ∧
      ((0 : Byte) ∉ chunk → s1.w.stdout = s.w.stdout ++ chunk) ∧
      s1.w.stderr = s.w.stderr ∧ s1.w.bus = s.w.bus := by
  refine ⟨_, loopBody_data chunk s hb hc, rfl, ?_, rfl, rfl⟩
  intro h0
  show s.w.stdout ++ beforeZero chunk = s.w.stdout ++ chunk
  rw [beforeZero_eq_self chunk h0]

/-- Witness of C1, amended: the chunk `'A','B',0x00,'C'` in a buffer full of `0xAA`. -/
theorem dispatch_forwards_up_to_first_zero_witness :
    frameAA.buffer.length = BUFFER_SIZE ∧ ([0x41, 0x42, 0x00, 0x43] : List Byte).length ≤ 1023 ∧
    ∃ s1, loopBody (ReadOutcome.data [0x41, 0x42, 0x00, 0x43]) frameAA = some s1 ∧
      s1.w.stdout = frameAA.w.stdout ++ ([0x41, 0x42, 0x00, 0x43] : List Byte).takeWhile (fun c => c ≠ 0) ∧
      ((0 : Byte) ∉ ([0x41, 0x42, 0x00, 0x43] : List Byte) →
        s1.w.stdout = frameAA.w.stdout ++ [0x41, 0x42, 0x00, 0x43]) ∧
      s1.w.stderr = frameAA.w.stderr ∧ s1.w.bus = frameAA.w.bus :=
  ⟨frameAA_length, by decide,
    dispatch_forwards_up_to_first_zero [0x41, 0x42, 0x00, 0x43] frameAA frameAA_length (by decide)⟩

/-- C9: for every buffer that holds a zero byte, `processPipeInfo` returns, and what it has
put on `stdout` is exactly the bytes before the first zero byte, in order (nothing when the
first byte is zero); the copy in `main.c` gives the same result as the one in `daemon.c`. -/
theorem processPipeInfo_writes_bytes_before_zero (buffer : List Byte) (w : World) (h : (0 : Byte) ∈ buffer) :
    ∃ pre post, buffer = pre ++ 0 :: post ∧ (0 : Byte) ∉ pre ∧
      DaemonC.processPipeInfo buffer w = some { w with stdout := w.stdout ++ pre } ∧
      MainC.processPipeInfo buffer w = some { w with stdout := w.stdout ++ pre } ∧
      (buffer.head? = some 0 → DaemonC.processPipeInfo buffer w = some w ∧
        MainC.processPipeInfo buffer w = some w) := by
  obtain ⟨pre, post, hsplit, hpre⟩ : ∃ pre post, buffer = pre ++ 0 :: post ∧ (0 : Byte) ∉ pre := by
    clear w
    induction buffer with
    | nil => simp at h
    | cons c rest ih =>
      by_cases hc : c = 0
      · exact ⟨[], rest, by simp [hc], by simp⟩
      · have hr : (0 : Byte) ∈ rest := by
          rcases List.mem_cons.mp h with e | e
          · exact absurd e.symm hc
          · exact e
        obtain ⟨pre, post, h1, h2⟩ := ih hr
        refine ⟨c :: pre, post, by simp [h1], ?_⟩
        intro hm
        rcases List.mem_cons.mp hm with e | e
        · exact hc e.symm
        · exact h2 e
  have hbz : beforeZero buffer = pre := by
    rw [hsplit, beforeZero_append_zero, beforeZero_eq_self pre hpre]
  have hd := processPipeInfo_of_mem buffer w h
  rw [hbz] at hd
  refine ⟨pre, post, hsplit, hpre, hd, ?_, ?_⟩
  · rw [mainC_processPipeInfo_eq, hd]
  · intro hh
    have hnil : pre = [] := by
      cases pre with
      | nil => rfl
      | cons a t =>
        rw [hsplit] at hh
        simp only [List.cons_append, List.head?_cons, Option.some.injEq] at hh
        exact absurd (by simp [hh]) hpre
    rw [mainC_processPipeInfo_eq, hd, hnil]
    simp

/-- Witness of C9: the buffer `'A','B',0x00,'C',0x00`. -/
theorem processPipeInfo_writes_bytes_before_zero_witness :
    (0 : Byte) ∈ ([0x41, 0x42, 0x00, 0x43, 0x00] : List Byte) ∧
    ∃ pre post, ([0x41, 0x42, 0x00, 0x43, 0x00] : List Byte) = pre ++ 0 :: post ∧ (0 : Byte) ∉ pre ∧
      DaemonC.processPipeInfo [0x41, 0x42, 0x00, 0x43, 0x00] World.init
        = some { World.init with stdout := World.init.stdout ++ pre } ∧
      MainC.processPipeInfo [0x41, 0x42, 0x00, 0x43, 0x00] World.init
        = some { World.init with stdout := World.init.stdout ++ pre } ∧
      (([0x41, 0x42, 0x00, 0x43, 0x00] : List Byte).head? = some 0 →
        DaemonC.processPipeInfo [0x41, 0x42, 0x00, 0x43, 0x00] World.init = some World.init ∧
        MainC.processPipeInfo [0x41, 0x42, 0x00, 0x43, 0x00] World.init = some World.init) :=
  ⟨by decide, processPipeInfo_writes_bytes_before_zero [0x41, 0x42, 0x00, 0x43, 0x00] World.init (by decide)⟩

/-- C10: `BUFFER_SIZE` is 1024 and the read asks for 1023 bytes; for every successful read
of `n ≤ 1023` bytes into the 1024-byte buffer, the index `n` of the terminator store is
inside the buffer, the buffer holds a zero byte at index `n` when `processPipeInfo` is
called, and the scan of `processPipeInfo` ends inside the buffer after at most `n` bytes. -/
theorem terminator_store_in_bounds (chunk : List Byte) (s : Frame)
    (hb : s.buffer.length = BUFFER_SIZE) (hc : chunk.length ≤ sizeofBuffer - 1) :
    BUFFER_SIZE = 1024 ∧ sizeofBuffer - 1 = 1023 ∧
    ∃ buffer1 buffer2 w2,
      DaemonC.read (ReadOutcome.data chunk) s.buffer (sizeofBuffer - 1) s.w
        = some (s.w, buffer1, (chunk.length : Int)) ∧
      buffer1.length = 1024 ∧ chunk.length < 1024 ∧
      store buffer1 (chunk.length : Int) 0 = some buffer2 ∧
      buffer2.length = 1024 ∧ buffer2[chunk.length]? = some 0 ∧
      processPipeInfo buffer2 s.w = some w2 ∧
      w2.stdout.length ≤ s.w.stdout.length + chunk.length ∧
      loopBody (ReadOutcome.data chunk) s = some { w := w2, buffer := buffer2 } := by
  have hc1 : chunk.length ≤ 1023 := by rw [sizeofBuffer_pred] at hc; exact hc
  have hb1 : s.buffer.length = 1024 := by rw [hb, bufferSize_eq]
  have hlt : chunk.length < s.buffer.length := by omega
  have hlen1 : (chunk ++ s.buffer.drop chunk.length).length = 1024 := by
    simp only [List.length_append, List.length_drop]; omega
  have hmem : (0 : Byte) ∈ terminated chunk s.buffer := by
    rw [terminated_eq _ _ hlt]; simp
  have hbz : beforeZero (terminated chunk s.buffer) = beforeZero chunk := by
    rw [terminated_eq _ _ hlt, beforeZero_append_zero]
  refine ⟨bufferSize_eq, sizeofBuffer_pred, chunk ++ s.buffer.drop chunk.length,
    terminated chunk s.buffer, { s.w with stdout := s.w.stdout ++ beforeZero chunk },
    ?_, hlen1, by omega, ?_, ?_, ?_, ?_, ?_, ?_⟩
  · have hcount : chunk.length ≤ sizeofBuffer - 1 ∧ sizeofBuffer - 1 ≤ s.buffer.length := by
      rw [sizeofBuffer_pred]; omega
    simp only [DaemonC.read, hcount, and_self, if_true]
  · have : chunk.length < (chunk ++ s.buffer.drop chunk.length).length := by omega
    simp only [store, Int.natCast_nonneg, Int.toNat_ofNat, this, and_self, if_true]
    rfl
  · rw [terminated_length _ _ hlt, hb1]
  · unfold terminated
    exact List.getElem?_set_self (by omega)
  · rw [processPipeInfo_of_mem _ s.w hmem, hbz]
  · have := beforeZero_length_le chunk
    simp only [List.length_append]
    omega
  · exact loopBody_data chunk s hb hc1

/-- Witness of C10: a read of the two bytes `"he"` into a buffer full of `0xAA`. -/
theorem terminator_store_in_bounds_witness :
    frameAA.buffer.length = BUFFER_SIZE ∧ (cstr "he").length ≤ sizeofBuffer - 1 ∧
    (BUFFER_SIZE = 1024 ∧ sizeofBuffer - 1 = 1023 ∧
    ∃ buffer1 buffer2 w2,
      DaemonC.read (ReadOutcome.data (cstr "he")) frameAA.buffer (sizeofBuffer - 1) frameAA.w
        = some (frameAA.w, buffer1, ((cstr "he").length : Int)) ∧
      buffer1.length = 1024 ∧ (cstr "he").length < 1024 ∧
      store buffer1 ((cstr "he").length : Int) 0 = some buffer2 ∧
      buffer2.length = 1024 ∧ buffer2[(cstr "he").length]? = some 0 ∧
      processPipeInfo buffer2 frameAA.w = some w2 ∧
      w2.stdout.length ≤ frameAA.w.stdout.length + (cstr "he").length ∧
      loopBody (ReadOutcome.data (cstr "he")) frameAA = some { w := w2, buffer := buffer2 }) :=
  ⟨frameAA_length, by decide,
    terminator_store_in_bounds (cstr "he") frameAA frameAA_length (by decide)⟩


/-! ## The control loop -/

/-- C2, as the specification states it, fails: with every start-up call succeeding and the
reads `"he"`, `""`, `"llo"`, the loop is still running after the last read, but `stdout`
then holds the line `Registered hat!` followed by `"hello"`, not `"hello"` alone: in
`daemon.c` the loop is entered only after `motorHatSetup` has written its notice. -/
theorem sink_after_hello_reads_has_notice :
    ∃ s1, main envOk (fun _ => 0xAA)
        [ReadOutcome.data (cstr "he"), ReadOutcome.data [], ReadOutcome.data (cstr "llo")]
        World.init = some (Outcome.reading s1) ∧
      s1.w.stdout = cstr "Registered hat!" ++ [10] ++ cstr "hello" ∧
      s1.w.stdout ≠ cstr "hello" := by
  have hr : ∀ r ∈ [ReadOutcome.data (cstr "he"), ReadOutcome.data [], ReadOutcome.data (cstr "llo")],
      r.fits 1023 = true := by decide
  rw [main_eq]
  simp only [show ¬ busOpenFails envOk by decide, show ¬ resetWriteFails envOk by decide,
    show ¬ fifoCreateFails envOk by decide, show ¬ fifoOpenFails envOk by decide, if_false]
  obtain ⟨s1, hs1, _, ho, _, _⟩ :=
    whileLoop_reading
      [ReadOutcome.data (cstr "he"), ReadOutcome.data [], ReadOutcome.data (cstr "llo")]
      { w := worldAtLoop envOk World.init, buffer := (List.range BUFFER_SIZE).map (fun _ => 0xAA) }
      (range_map_length _ _) hr
  refine ⟨s1, hs1, ?_, ?_⟩
  · rw [ho, dispatched_hello]; rfl
  · rw [ho, dispatched_hello]; decide

/-- C2, amended: for every finite sequence of successful reads, each chunk at most 1023
bytes long and free of zero bytes (empty chunks allowed), the loop consumes all of them and
is still running afterwards, what it has added to `stdout` is exactly the concatenation of
the chunks in read order, and nothing went to `stderr`; an empty read leaves the world as it
was.  In a run of `main` whose start-up succeeds, `stdout` after the last read is what it
held before the run, then the line `Registered hat!` that setup wrote, then that
concatenation, with nothing else between or after. -/
theorem loop_output_is_notice_then_concatenation (env : Env) (garbage : Nat → Byte)
    (chunks : List (List Byte)) (w : World) (s : Frame)
    (hs : ¬ startupFails env) (hb : s.buffer.length = BUFFER_SIZE)
    (hc : ∀ c ∈ chunks, c.length ≤ 1023 ∧ (0 : Byte) ∉ c) :
    (∃ s1, whileLoop (chunks.map ReadOutcome.data) s = some (Outcome.reading s1) ∧
      s1.w.stdout = s.w.stdout ++ chunks.flatten ∧ s1.w.stderr = s.w.stderr) ∧
    (∃ s2, loopBody (ReadOutcome.data []) s = some s2 ∧ s2.w = s.w ∧
      whileLoop [ReadOutcome.data []] s = some (Outcome.reading s2)) ∧
    (∃ s3, main env garbage (chunks.map ReadOutcome.data) w = some (Outcome.reading s3) ∧
      s3.w.stdout = w.stdout ++ (cstr "Registered hat!" ++ [10]) ++ chunks.flatten ∧
      s3.w.stderr = w.stderr) := by
  have hr : ∀ r ∈ chunks.map ReadOutcome.data, r.fits 1023 = true := by
    intro r hm
    obtain ⟨c, hcm, rfl⟩ := List.mem_map.mp hm
    simpa [ReadOutcome.fits] using (hc c hcm).1
  have hd := dispatched_map_data chunks (fun c hcm => (hc c hcm).2)
  refine ⟨?_, ?_, ?_⟩
  · obtain ⟨s1, h1, _, ho, he, _⟩ := whileLoop_reading _ s hb hr
    refine ⟨s1, h1, ?_, ?_⟩
    · rw [ho, hd]
    · rw [he, readReports_map_data]; simp
  · have h := loopBody_data [] s hb (by simp)
    refine ⟨_, h, ?_, ?_⟩
    · simp [beforeZero]
    · rw [whileLoop_cons _ _ _ _ h, whileLoop_nil]
  · have h1 : ¬ busOpenFails env := fun h => hs (Or.inl h)
    have h2 : ¬ resetWriteFails env := fun h => hs (Or.inr (Or.inl h))
    have h3 : ¬ fifoCreateFails env := fun h => hs (Or.inr (Or.inr (Or.inl h)))
    have h4 : ¬ fifoOpenFails env := fun h => hs (Or.inr (Or.inr (Or.inr h)))
    rw [main_eq]
    simp only [h1, h2, h3, h4, if_false]
    obtain ⟨s3, hs3, _, ho, he, _⟩ :=
      whileLoop_reading (chunks.map ReadOutcome.data)
        { w := worldAtLoop env w, buffer := (List.range BUFFER_SIZE).map garbage }
        (range_map_length _ garbage) hr
    refine ⟨s3, hs3, ?_, ?_⟩
    · rw [ho, hd]; rfl
    · rw [he, readReports_map_data]; simp [worldAtLoop, worldAfterSetup]

/-- Witness of C2, amended: every start-up call succeeds and the reads are `"he"`, `""`,
`"llo"`; the loop adds `"hello"`, and `stdout` of the run is the notice line and `"hello"`. -/
theorem loop_output_is_notice_then_concatenation_witness :
    (∃ s1, whileLoop [ReadOutcome.data (cstr "he"), ReadOutcome.data [], ReadOutcome.data (cstr "llo")]
        frameAA = some (Outcome.reading s1) ∧
      s1.w.stdout = cstr "hello" ∧ s1.w.stderr = []) ∧
    (∃ s3, main envOk (fun _ => 0xAA)
        [ReadOutcome.data (cstr "he"), ReadOutcome.data [], ReadOutcome.data (cstr "llo")]
        World.init = some (Outcome.reading s3) ∧
      s3.w.stdout = cstr "Registered hat!" ++ [10] ++ cstr "hello" ∧ s3.w.stderr = []) := by
  obtain ⟨⟨s1, h1, ho1, he1⟩, _, ⟨s3, h3, ho3, he3⟩⟩ :=
    loop_output_is_notice_then_concatenation envOk (fun _ => 0xAA)
      [cstr "he", [], cstr "llo"] World.init frameAA (by decide) frameAA_length (by decide)
  refine ⟨⟨s1, h1, ?_, ?_⟩, ⟨s3, h3, ?_, ?_⟩⟩
  · rw [ho1]; decide
  · rw [he1]; rfl
  · rw [ho3]; decide
  · rw [he3]; rfl

/-- C5: for every sequence of read outcomes, a failed read is reported on `stderr`, leaves
`stdout` and the buffer as they were, and does not stop the loop; after the whole sequence
the loop is still running and `stdout` holds what the same sequence without its failed
reads produces. -/
theorem failed_reads_are_skipped (reads : List ReadOutcome) (s : Frame)
    (hb : s.buffer.length = BUFFER_SIZE) (hr : ∀ r ∈ reads, r.fits 1023 = true) :
    (∃ s1 s2, whileLoop reads s = some (Outcome.reading s1) ∧
      whileLoop (reads.filter ReadOutcome.isData) s = some (Outcome.reading s2) ∧
      s1.w.stdout = s2.w.stdout ∧
      s1.w.stderr = s.w.stderr ++ readReports reads ∧ s2.w.stderr = s.w.stderr) ∧
    (∀ (e : Nat) (s0 : Frame), ∃ s3, loopBody (ReadOutcome.error e) s0 = some s3 ∧
      s3.w.stdout = s0.w.stdout ∧ s3.buffer = s0.buffer ∧
      s3.w.stderr = s0.w.stderr ++ [Diag.perror "reading from pipe" e] ∧
      whileLoop [ReadOutcome.error e] s0 = some (Outcome.reading s3)) := by
  constructor
  · obtain ⟨s1, h1, _, ho1, he1, _⟩ := whileLoop_reading reads s hb hr
    have hr2 : ∀ r ∈ reads.filter ReadOutcome.isData, r.fits 1023 = true :=
      fun r hm => hr r (List.mem_filter.mp hm).1
    obtain ⟨s2, h2, _, ho2, he2, _⟩ := whileLoop_reading _ s hb hr2
    refine ⟨s1, s2, h1, h2, ?_, he1, ?_⟩
    · rw [ho1, ho2, dispatched_filter]
    · rw [he2, readReports_filter]; simp
  · intro e s0
    have h := loopBody_error e s0
    exact ⟨_, h, rfl, rfl, rfl, by rw [whileLoop_cons _ _ _ _ h, whileLoop_nil]⟩

/-- Witness of C5: the reads `"ab"`, a failure with `errno` 5, `"cd"`. -/
theorem failed_reads_are_skipped_witness :
    ∃ s1 s2,
      whileLoop [ReadOutcome.data (cstr "ab"), ReadOutcome.error 5, ReadOutcome.data (cstr "cd")]
        frameAA = some (Outcome.reading s1) ∧
      whileLoop [ReadOutcome.data (cstr "ab"), ReadOutcome.data (cstr "cd")]
        frameAA = some (Outcome.reading s2) ∧
      s1.w.stdout = s2.w.stdout ∧
      s1.w.stderr = [Diag.perror "reading from pipe" 5] ∧ s2.w.stderr = [] := by
  obtain ⟨⟨s1, s2, h1, h2, ho, he1, he2⟩, _⟩ :=
    failed_reads_are_skipped
      [ReadOutcome.data (cstr "ab"), ReadOutcome.error 5, ReadOutcome.data (cstr "cd")]
      frameAA frameAA_length (by decide)
  exact ⟨s1, s2, h1, h2, ho, he1, he2⟩

/-! ## The motor hat -/

/-- C3: for every handle, and whether the write succeeds or fails, the only call
`motorHatReset` adds to the bus is one write of `0x00` to register `0x00` (`MODE_1_REG`)
on that handle; it returns when the write succeeds and exits otherwise. -/
theorem motorHatReset_single_write (env : Env) (fd : Int) (w : World) :
    MODE_1_REG = 0x00 ∧
    (motorHatReset env fd w).world.bus = w.bus ++ [BusCall.writeReg8 fd 0x00 0x00] ∧
    ((motorHatReset env fd w).world.bus.drop w.bus.length).filter BusCall.isTransaction
      = [BusCall.writeReg8 fd 0x00 0x00] ∧
    motorHatReset env fd w =
      if env.wiringPiI2CWriteReg8 fd 0x00 0x00 < 0 then
        Ctl.exit (motorHatReset env fd w).world (-1)
      else Ctl.ret (motorHatReset env fd w).world () := by
  have hw : (motorHatReset env fd w).world.bus = w.bus ++ [BusCall.writeReg8 fd 0x00 0x00] := by
    rw [motorHatReset_eq]
    split <;> rfl
  refine ⟨rfl, hw, ?_, ?_⟩
  · rw [hw]; simp [BusCall.isTransaction]
  · rw [motorHatReset_eq]
    show _ = if env.wiringPiI2CWriteReg8 fd MODE_1_REG 0x00 < 0 then _ else _
    split <;> rfl

/-- C4: `motorHatSetup` opens the bus at address `0x60` and then resets.  When the open
fails it exits with `-1` (status 255) and has written no register; when the open succeeds
and the `MODE_1_REG` write fails it exits with `-1` as well; when both succeed it returns
the handle the open gave, after exactly one register write. -/
theorem motorHatSetup_open_then_reset (env : Env) (w : World) :
    HAT_ADDR = 0x60 ∧ exitStatus (-1) = 255 ∧
    motorHatSetup env w =
      if env.wiringPiI2CSetup 0x60 < 0 then
        Ctl.exit
          { w with bus := w.bus ++ [BusCall.setup 0x60],
                   stderr := w.stderr ++ [Diag.fprintf "Unable to register at at %d\n" 0x60] } (-1)
      else if env.wiringPiI2CWriteReg8 (env.wiringPiI2CSetup 0x60) 0x00 0x00 < 0 then
        Ctl.exit
          { w with bus := w.bus ++ [BusCall.setup 0x60,
                     BusCall.writeReg8 (env.wiringPiI2CSetup 0x60) 0x00 0x00],
                   stdout := w.stdout ++ cstr "Registered hat!" ++ [10],
                   stderr := w.stderr ++ [Diag.fprintf "Unable to write to register %d\n" 0x00] } (-1)
      else
        Ctl.ret
          { w with bus := w.bus ++ [BusCall.setup 0x60,
                     BusCall.writeReg8 (env.wiringPiI2CSetup 0x60) 0x00 0x00],
                   stdout := w.stdout ++ cstr "Registered hat!" ++ [10] }
          (env.wiringPiI2CSetup 0x60) := by
  refine ⟨rfl, by decide, ?_⟩
  rw [motorHatSetup_eq]
  show (if env.wiringPiI2CSetup 0x60 < 0 then _ else
    if env.wiringPiI2CWriteReg8 (env.wiringPiI2CSetup 0x60) 0x00 0x00 < 0 then _ else _) = _
  by_cases h1 : env.wiringPiI2CSetup 0x60 < 0
  · simp only [h1, if_true]; rfl
  · simp only [h1, if_false]
    by_cases h2 : env.wiringPiI2CWriteReg8 (env.wiringPiI2CSetup 0x60) 0x00 0x00 < 0
    · simp only [h2, if_true]
      simp [worldAfterSetup, registeredNotice, HAT_ADDR, MODE_1_REG]
    · simp only [h2, if_false]
      simp [worldAfterSetup, registeredNotice, HAT_ADDR, MODE_1_REG]


/-! ## The whole daemon -/

theorem dispatched_he : dispatched [ReadOutcome.data (cstr "he")] = cstr "he" := by decide

/-- After any run of `main` the bus has seen the open and, when the open succeeded, one
write of `0x00` to `MODE_1_REG`; no other register is touched. -/
theorem main_bus (env : Env) (garbage : Nat → Byte) (reads : List ReadOutcome) (w : World)
    (hr : ∀ r ∈ reads, r.fits 1023 = true) :
    ∃ o, main env garbage reads w = some o ∧
      o.world.bus = w.bus ++
        (if busOpenFails env then [BusCall.setup HAT_ADDR]
         else [BusCall.setup HAT_ADDR,
               BusCall.writeReg8 (env.wiringPiI2CSetup HAT_ADDR) MODE_1_REG 0x00]) := by
  rw [main_eq]
  by_cases h1 : busOpenFails env
  · simp only [h1, if_true]; exact ⟨_, rfl, rfl⟩
  · simp only [h1, if_false]
    by_cases h2 : resetWriteFails env
    · simp only [h2, if_true]; exact ⟨_, rfl, rfl⟩
    · simp only [h2, if_false]
      by_cases h3 : fifoCreateFails env
      · simp only [h3, if_true]; exact ⟨_, rfl, rfl⟩
      · simp only [h3, if_false]
        by_cases h4 : fifoOpenFails env
        · simp only [h4, if_true]; exact ⟨_, rfl, rfl⟩
        · simp only [h4, if_false]
          obtain ⟨s1, hs1, _, _, _, hbus⟩ :=
            whileLoop_reading reads
              { w := worldAtLoop env w, buffer := (List.range BUFFER_SIZE).map garbage }
              (range_map_length _ garbage) hr
          exact ⟨_, hs1, hbus⟩

/-- C6: on every sequence of read outcomes the loop, once entered, is still running after
the last of them.  A run of `main` either reaches the loop and stays in it, which is the
case exactly when none of the four start-up failures occurs (a failed `mkfifo` with
`errno == EEXIST` is not one), or it has exited with a non-zero status because the bus open,
the reset write, the FIFO creation or the FIFO open failed, and then it has exited before
the first read.  No run ends with status 0. -/
theorem daemon_exits_only_on_startup_failure (env : Env) (garbage : Nat → Byte)
    (reads : List ReadOutcome) (w : World) (hr : ∀ r ∈ reads, r.fits 1023 = true) :
    (∀ s : Frame, s.buffer.length = BUFFER_SIZE →
      ∃ s1, whileLoop reads s = some (Outcome.reading s1) ∧ s1.buffer.length = BUFFER_SIZE) ∧
    ∃ o, main env garbage reads w = some o ∧
      match o with
      | Outcome.reading _ =>
        ¬ busOpenFails env ∧ ¬ resetWriteFails env ∧ ¬ fifoCreateFails env ∧ ¬ fifoOpenFails env
      | Outcome.exited w1 status =>
        exitStatus status ≠ 0 ∧
        (busOpenFails env ∨ resetWriteFails env ∨ fifoCreateFails env ∨ fifoOpenFails env) ∧
        main env garbage [] w = some (Outcome.exited w1 status) := by
  constructor
  · intro s hb
    obtain ⟨s1, h1, hb1, _⟩ := whileLoop_reading reads s hb hr
    exact ⟨s1, h1, hb1⟩
  · rw [main_eq, main_eq]
    by_cases h1 : busOpenFails env
    · simp only [h1, if_true]
      exact ⟨_, rfl, by decide, Or.inl trivial, rfl⟩
    · simp only [h1, if_false]
      by_cases h2 : resetWriteFails env
      · simp only [h2, if_true]
        exact ⟨_, rfl, by decide, Or.inr (Or.inl trivial), rfl⟩
      · simp only [h2, if_false]
        by_cases h3 : fifoCreateFails env
        · simp only [h3, if_true]
          exact ⟨_, rfl, by decide, Or.inr (Or.inr (Or.inl trivial)), rfl⟩
        · simp only [h3, if_false]
          by_cases h4 : fifoOpenFails env
          · simp only [h4, if_true]
            exact ⟨_, rfl, by decide, Or.inr (Or.inr (Or.inr trivial)), rfl⟩
          · simp only [h4, if_false]
            obtain ⟨s1, hs1, _⟩ :=
              whileLoop_reading reads
                { w := worldAtLoop env w, buffer := (List.range BUFFER_SIZE).map garbage }
                (range_map_length _ garbage) hr
            refine ⟨_, hs1, ?_⟩
            simp

/-- Witness of C6: every start-up call succeeds and the reads are `"he"`, a failure, `""`. -/
theorem daemon_exits_only_on_startup_failure_witness :
    (∀ s : Frame, s.buffer.length = BUFFER_SIZE →
      ∃ s1, whileLoop [ReadOutcome.data (cstr "he"), ReadOutcome.error 5, ReadOutcome.data []] s
          = some (Outcome.reading s1) ∧ s1.buffer.length = BUFFER_SIZE) ∧
    ∃ o, main envOk (fun _ => 0xAA)
        [ReadOutcome.data (cstr "he"), ReadOutcome.error 5, ReadOutcome.data []] World.init = some o ∧
      match o with
      | Outcome.reading _ =>
        ¬ busOpenFails envOk ∧ ¬ resetWriteFails envOk ∧ ¬ fifoCreateFails envOk ∧
          ¬ fifoOpenFails envOk
      | Outcome.exited w1 status =>
        exitStatus status ≠ 0 ∧
        (busOpenFails envOk ∨ resetWriteFails envOk ∨ fifoCreateFails envOk ∨ fifoOpenFails envOk) ∧
        main envOk (fun _ => 0xAA) [] World.init = some (Outcome.exited w1 status) :=
  daemon_exits_only_on_startup_failure envOk (fun _ => 0xAA)
    [ReadOutcome.data (cstr "he"), ReadOutcome.error 5, ReadOutcome.data []] World.init
    (by decide)

/-- C7, as the specification states it, fails: with every start-up call succeeding and the
single read `"he"`, `stdout` holds the line `Registered hat!` in front of the dispatched
bytes, so it does not hold exactly the dispatched bytes; `stderr` holds nothing. -/
theorem registration_notice_is_on_stdout :
    ∃ o, main envOk (fun _ => 0xAA) [ReadOutcome.data (cstr "he")] World.init = some o ∧
      o.world.stdout = cstr "Registered hat!" ++ [10] ++ cstr "he" ∧
      o.world.stderr = [] ∧
      o.world.stdout ≠ dispatched [ReadOutcome.data (cstr "he")] := by
  have hr : ∀ r ∈ [ReadOutcome.data (cstr "he")], r.fits 1023 = true := by decide
  rw [main_eq]
  simp only [show ¬ busOpenFails envOk by decide, show ¬ resetWriteFails envOk by decide,
    show ¬ fifoCreateFails envOk by decide, show ¬ fifoOpenFails envOk by decide, if_false]
  obtain ⟨s1, hs1, _, ho, he, _⟩ :=
    whileLoop_reading [ReadOutcome.data (cstr "he")]
      { w := worldAtLoop envOk World.init, buffer := (List.range BUFFER_SIZE).map (fun _ => 0xAA) }
      (range_map_length _ _) hr
  refine ⟨_, hs1, ?_, ?_, ?_⟩
  · show s1.w.stdout = _
    rw [ho, dispatched_he]; rfl
  · show s1.w.stderr = _
    rw [he]; rfl
  · show s1.w.stdout ≠ _
    rw [ho, dispatched_he]; decide

/-- C7, amended: in every run of `main` the failure reports of setup and reset, the FIFO
reports and the read-error reports go to `stderr` and never to `stdout`; the notice
`Registered hat!` is written with `puts` to `stdout`, once, after a successful bus open.
So `stdout` holds that line (when the open succeeded) followed by exactly the dispatched
bytes, each once, in order, and `stderr` holds the report of a failed start-up step or
else one report per failed read. -/
theorem stdout_is_notice_then_dispatched (env : Env) (garbage : Nat → Byte)
    (reads : List ReadOutcome) (w : World) (hr : ∀ r ∈ reads, r.fits 1023 = true) :
    ∃ o, main env garbage reads w = some o ∧
      o.world.stdout = w.stdout ++
        (if busOpenFails env then [] else cstr "Registered hat!" ++ [10]) ++
        (if startupFails env then [] else dispatched reads) ∧
      o.world.stderr = w.stderr ++
        (if startupFails env then startupReports env else readReports reads) := by
  rw [main_eq]
  unfold startupFails startupReports
  by_cases h1 : busOpenFails env
  · simp only [h1, if_true, true_or]
    exact ⟨_, rfl, by simp [Outcome.world], rfl⟩
  · simp only [h1, if_false, false_or]
    by_cases h2 : resetWriteFails env
    · simp only [h2, if_true, true_or]
      exact ⟨_, rfl, by simp [Outcome.world, worldAfterSetup, registeredNotice], rfl⟩
    · simp only [h2, if_false, false_or]
      by_cases h3 : fifoCreateFails env
      · simp only [h3, if_true, true_or]
        exact ⟨_, rfl, by simp [Outcome.world, worldAfterSetup, registeredNotice], rfl⟩
      · simp only [h3, if_false, false_or]
        by_cases h4 : fifoOpenFails env
        · simp only [h4, if_true]
          exact ⟨_, rfl, by simp [Outcome.world, worldAfterSetup, registeredNotice], rfl⟩
        · simp only [h4, if_false]
          obtain ⟨s1, hs1, _, ho, he, _⟩ :=
            whileLoop_reading reads
              { w := worldAtLoop env w, buffer := (List.range BUFFER_SIZE).map garbage }
              (range_map_length _ garbage) hr
          refine ⟨_, hs1, ?_, ?_⟩
          · show s1.w.stdout = _
            rw [ho]; simp [worldAtLoop, worldAfterSetup, registeredNotice]
          · show s1.w.stderr = _
            rw [he]; rfl

/-- Witness of C7, amended: every start-up call succeeds and the reads are `"he"`, a
failure with `errno` 5, `"llo"`. -/
theorem stdout_is_notice_then_dispatched_witness :
    ∃ o, main envOk (fun _ => 0xAA)
        [ReadOutcome.data (cstr "he"), ReadOutcome.error 5, ReadOutcome.data (cstr "llo")]
        World.init = some o ∧
      o.world.stdout = cstr "Registered hat!" ++ [10] ++ cstr "hello" ∧
      o.world.stderr = [Diag.perror "reading from pipe" 5] := by
  obtain ⟨o, h, ho, he⟩ :=
    stdout_is_notice_then_dispatched envOk (fun _ => 0xAA)
      [ReadOutcome.data (cstr "he"), ReadOutcome.error 5, ReadOutcome.data (cstr "llo")]
      World.init (by decide)
  refine ⟨o, h, ?_, ?_⟩
  · rw [ho]; decide
  · rw [he]; decide

end BrailleDaemon
